import Mathlib

/-!
Verification of the GO2 video bridge (supersplat-vln-tool, src/tools):
a shallow embedding of the frame-distribution core shared by the four
variants go2_video_bridge.py (v1), _v2.py, _v3.py, _v4.py, together with
proofs about the producer adapter, the FPS estimator, the per-session
delivery loop, the status broadcaster, the lock discipline of the
session loops, the binary wire codec and the startup behaviour.

Bytes are modelled as natural numbers below 256, byte buffers as lists
of naturals, Python's arbitrary-precision integers as Nat or Int, and
clock readings (time.time) as rationals.
-/

namespace Go2Bridge

/-! ## FPS estimator (VideoState.frame_times / VideoState.fps)

All four variants keep a collections.deque with maxlen 30 of production
timestamps and, while holding the lock, run

  frame_times.append(t)
  if len(frame_times) >= 2:
      duration = frame_times[-1] - frame_times[0]
      if duration > 0:
          fps = (len(frame_times) - 1) / duration

so the estimator state is the window plus the last computed fps value. -/

structure FpsState where
  times : List ℚ
  fps : ℚ
  deriving Repr, DecidableEq

def fpsInitState : FpsState := ⟨[], 0⟩

/-- Appending to a deque with maxlen 30: the oldest entry is dropped
once the window already holds 30 entries. -/
def dequeAppend30 (w : List ℚ) (t : ℚ) : List ℚ :=
  if 30 < (w ++ [t]).length then (w ++ [t]).tail else w ++ [t]

/-- The fps value after an update: recomputed from the window when it
holds at least two entries spanning a positive duration, otherwise the
previous value is kept. -/
def fpsRateAfter (w : List ℚ) (old : ℚ) : ℚ :=
  if 2 ≤ w.length then
    if 0 < w.getLastD 0 - w.headD 0 then
      ((w.length : ℚ) - 1) / (w.getLastD 0 - w.headD 0)
    else old
  else old

/-- One FPS-accounting update, exactly the locked block quoted above
(go2_video_bridge.py lines 115-119, identically in v2 lines 124-128 and
v3 lines 141-145). -/
def fpsUpdate (s : FpsState) (t : ℚ) : FpsState :=
  ⟨dequeAppend30 s.times t, fpsRateAfter (dequeAppend30 s.times t) s.fps⟩

def runFps (ts : List ℚ) : FpsState := ts.foldl fpsUpdate fpsInitState

/-! ## Producer adapter, variant v1 (video_capture_thread)

The per-sample body of the capture loop of go2_video_bridge.py
(lines 94-119).  A sample for which cv2.imencode fails is modelled by
encoded = none; a successful encode carries the JPEG bytes.  The read
failure branch (ret false / frame None) leaves the state untouched and
is subsumed by not presenting a sample at all. -/

structure SampleV1 where
  encoded : Option (List ℕ)
  time : ℚ

structure VideoStateV1 where
  latest_frame : Option (List ℕ)
  frame_id : ℕ
  timestamp : ℚ
  fps : ℚ
  connected : Bool
  frame_times : List ℚ

def initVideoStateV1 : VideoStateV1 :=
  { latest_frame := none, frame_id := 0, timestamp := 0, fps := 0,
    connected := false, frame_times := [] }

/-- One iteration of the while-loop of video_capture_thread for one
delivered sample: on encode failure the loop just continues (state
unchanged); on success the slot, the id, the timestamp and the FPS
window are updated under the lock. -/
def video_capture_step (s : VideoStateV1) (smp : SampleV1) : VideoStateV1 :=
  match smp.encoded with
  | none => s
  | some jpeg =>
    let f := fpsUpdate ⟨s.frame_times, s.fps⟩ smp.time
    { s with latest_frame := some jpeg, frame_id := s.frame_id + 1,
             timestamp := smp.time, frame_times := f.times, fps := f.fps }

/-- Frame ids recorded at each successful production while running the
capture loop over a list of samples. -/
def producedIdsV1 : VideoStateV1 → List SampleV1 → List ℕ
  | _, [] => []
  | s, smp :: rest =>
    let s2 := video_capture_step s smp
    if smp.encoded.isSome then s2.frame_id :: producedIdsV1 s2 rest
    else producedIdsV1 s2 rest

/-- Slot version (frame_id) after every loop iteration, successful or
not. -/
def versionTraceV1 : VideoStateV1 → List SampleV1 → List ℕ
  | _, [] => []
  | s, smp :: rest =>
    let s2 := video_capture_step s smp
    s2.frame_id :: versionTraceV1 s2 rest

/-! ## Producer adapter, variant v2 (GO2VideoReceiver.on_new_sample)

go2_video_bridge_v2.py lines 83-137.  A failed pull-sample or buffer
map returns Gst.FlowReturn.ERROR without touching the state; this is
modelled by encoded = none.  The code calls time.time() twice, once for
the timestamp field and once for the FPS window, hence two clock
readings per sample. -/

structure SampleV2 where
  encoded : Option (List ℕ)
  t1 : ℚ
  t2 : ℚ
  width : ℤ
  height : ℤ

structure VideoStateV2 where
  latest_frame : Option (List ℕ)
  frame_id : ℕ
  timestamp : ℚ
  fps : ℚ
  connected : Bool
  frame_times : List ℚ
  width : ℤ
  height : ℤ

def initVideoStateV2 : VideoStateV2 :=
  { latest_frame := none, frame_id := 0, timestamp := 0, fps := 0,
    connected := false, frame_times := [], width := 0, height := 0 }

def on_new_sample_step (s : VideoStateV2) (smp : SampleV2) : VideoStateV2 :=
  match smp.encoded with
  | none => s
  | some jpeg =>
    let f := fpsUpdate ⟨s.frame_times, s.fps⟩ smp.t2
    { s with latest_frame := some jpeg, frame_id := s.frame_id + 1,
             timestamp := smp.t1, width := smp.width, height := smp.height,
             connected := true, frame_times := f.times, fps := f.fps }

def producedIdsV2 : VideoStateV2 → List SampleV2 → List ℕ
  | _, [] => []
  | s, smp :: rest =>
    let s2 := on_new_sample_step s smp
    if smp.encoded.isSome then s2.frame_id :: producedIdsV2 s2 rest
    else producedIdsV2 s2 rest

def versionTraceV2 : VideoStateV2 → List SampleV2 → List ℕ
  | _, [] => []
  | s, smp :: rest =>
    let s2 := on_new_sample_step s smp
    s2.frame_id :: versionTraceV2 s2 rest

/-! ### Producer lemmas -/

theorem producedIdsV1_eq_range (s : VideoStateV1) (l : List SampleV1) :
    producedIdsV1 s l =
      List.range' (s.frame_id + 1) (l.countP (fun smp => smp.encoded.isSome)) := by
  induction l generalizing s with
  | nil => simp [producedIdsV1]
  | cons smp rest ih =>
    rcases hsmp : smp.encoded with _ | jpeg
    · have hstep : video_capture_step s smp = s := by
        simp [video_capture_step, hsmp]
      simp [producedIdsV1, hsmp, hstep, ih, List.countP_cons]
    · have hid : (video_capture_step s smp).frame_id = s.frame_id + 1 := by
        simp [video_capture_step, hsmp]
      simp [producedIdsV1, hsmp, ih, hid, List.countP_cons, List.range'_succ]

theorem versionTraceV1_chain (s : VideoStateV1) (l : List SampleV1) :
    List.Chain' (· ≤ ·) (s.frame_id :: versionTraceV1 s l) := by
  induction l generalizing s with
  | nil => simp [versionTraceV1]
  | cons smp rest ih =>
    have hle : s.frame_id ≤ (video_capture_step s smp).frame_id := by
      rcases hsmp : smp.encoded with _ | jpeg <;>
        simp [video_capture_step, hsmp]
    simpa [versionTraceV1, List.chain'_cons] using
      And.intro hle (by simpa using ih (video_capture_step s smp))

theorem producedIdsV2_eq_range (s : VideoStateV2) (l : List SampleV2) :
    producedIdsV2 s l =
      List.range' (s.frame_id + 1) (l.countP (fun smp => smp.encoded.isSome)) := by
  induction l generalizing s with
  | nil => simp [producedIdsV2]
  | cons smp rest ih =>
    rcases hsmp : smp.encoded with _ | jpeg
    · have hstep : on_new_sample_step s smp = s := by
        simp [on_new_sample_step, hsmp]
      simp [producedIdsV2, hsmp, hstep, ih, List.countP_cons]
    · have hid : (on_new_sample_step s smp).frame_id = s.frame_id + 1 := by
        simp [on_new_sample_step, hsmp]
      simp [producedIdsV2, hsmp, ih, hid, List.countP_cons, List.range'_succ]

theorem versionTraceV2_chain (s : VideoStateV2) (l : List SampleV2) :
    List.Chain' (· ≤ ·) (s.frame_id :: versionTraceV2 s l) := by
  induction l generalizing s with
  | nil => simp [versionTraceV2]
  | cons smp rest ih =>
    have hle : s.frame_id ≤ (on_new_sample_step s smp).frame_id := by
      rcases hsmp : smp.encoded with _ | jpeg <;>
        simp [on_new_sample_step, hsmp]
    simpa [versionTraceV2, List.chain'_cons] using
      And.intro hle (by simpa using ih (on_new_sample_step s smp))

/-! ### FPS estimator lemmas -/

theorem headD_lt_getLastD_of_pairwise (w : List ℚ)
    (hw : List.Pairwise (· < ·) w) (hlen : 2 ≤ w.length) :
    w.headD 0 < w.getLastD 0 := by
  match w, hw, hlen with
  | a :: b :: rest, hw, _ =>
    have ha : ∀ x ∈ b :: rest, a < x := (List.pairwise_cons.1 hw).1
    have h1 : (a :: b :: rest).getLastD 0 = rest.getLastD b :=
      List.getLastD_cons 0 a (b :: rest) ▸ List.getLastD_cons a b rest
    have h2 : (a :: b :: rest).headD 0 = a := rfl
    rw [h1, h2]
    exact ha _ (List.getLastD_mem_cons rest b)

theorem runFps_times_eq (ts : List ℚ) :
    (runFps ts).times = ts.drop (ts.length - 30) := by
  induction ts using List.reverseRecOn with
  | nil => simp [runFps, fpsInitState]
  | append_singleton ts t ih =>
    have hrun : (runFps (ts ++ [t])).times =
        dequeAppend30 (runFps ts).times t := by
      simp [runFps, List.foldl_append, fpsUpdate]
    rcases Nat.lt_or_ge ts.length 30 with hlen | hlen
    · have hwin : (runFps ts).times = ts := by
        simpa [Nat.sub_eq_zero_of_le (Nat.le_of_lt hlen)] using ih
      have hnot : ¬ 30 < ((runFps ts).times ++ [t]).length := by
        rw [hwin]; simp only [List.length_append, List.length_singleton]; omega
      have hz : (ts ++ [t]).length - 30 = 0 := by
        simp only [List.length_append, List.length_singleton]; omega
      rw [hrun]
      unfold dequeAppend30
      rw [if_neg hnot, hwin, hz, List.drop_zero]
    · have hwlen : (runFps ts).times.length = 30 := by
        rw [ih, List.length_drop]; omega
      have hidx : (ts ++ [t]).length - 30 = ts.length - 30 + 1 := by
        simp only [List.length_append, List.length_singleton]; omega
      rcases hcons : (runFps ts).times with _ | ⟨a, rest⟩
      · rw [hcons] at hwlen; simp at hwlen
      · have hrest : rest = (ts.drop (ts.length - 30)).tail := by
          rw [← ih, hcons]; rfl
        have hlt : 30 < ((a :: rest) ++ [t]).length := by
          have h30 : (a :: rest).length = 30 := by rw [← hcons]; exact hwlen
          have : ((a :: rest) ++ [t]).length = 31 := by
            simp only [List.length_append, List.length_singleton, h30]
          omega
        rw [hrun, hcons]
        unfold dequeAppend30
        rw [if_pos hlt]
        have hstep : ((a :: rest) ++ [t]).tail = rest ++ [t] := rfl
        rw [hstep, hrest, List.tail_drop, hidx,
          List.drop_append_of_le_length (by omega)]

theorem runFps_fps_spec (ts : List ℚ) (hts : List.Pairwise (· < ·) ts) :
    ((runFps ts).times.length < 2 → (runFps ts).fps = 0) ∧
    (2 ≤ (runFps ts).times.length →
      (runFps ts).fps = (((runFps ts).times.length : ℚ) - 1) /
        ((runFps ts).times.getLastD 0 - (runFps ts).times.headD 0)) := by
  induction ts using List.reverseRecOn with
  | nil => simp [runFps, fpsInitState]
  | append_singleton ts t ih =>
    have hts' : List.Pairwise (· < ·) ts :=
      hts.sublist (List.sublist_append_left ts [t])
    have ih' := ih hts'
    have htimes : (runFps (ts ++ [t])).times =
        dequeAppend30 (runFps ts).times t := by
      simp [runFps, List.foldl_append, fpsUpdate]
    have hfps : (runFps (ts ++ [t])).fps =
        fpsRateAfter (dequeAppend30 (runFps ts).times t) (runFps ts).fps := by
      simp [runFps, List.foldl_append, fpsUpdate]
    have hpw : List.Pairwise (· < ·) (dequeAppend30 (runFps ts).times t) := by
      rw [← htimes, runFps_times_eq]
      exact hts.sublist (List.drop_sublist _ _)
    constructor
    · intro hsmall
      rw [htimes] at hsmall
      have h1 : (runFps ts).times.length = min ts.length 30 := by
        rw [runFps_times_eq, List.length_drop]; omega
      have h2 : (dequeAppend30 (runFps ts).times t).length =
          min (ts.length + 1) 30 := by
        rw [← htimes, runFps_times_eq, List.length_drop]
        simp only [List.length_append, List.length_singleton]; omega
      have hold : (runFps ts).times.length < 2 := by omega
      have h0 : (runFps ts).fps = 0 := ih'.1 hold
      rw [hfps]
      unfold fpsRateAfter
      rw [if_neg (by omega : ¬ 2 ≤ (dequeAppend30 (runFps ts).times t).length), h0]
    · intro hbig
      rw [htimes] at hbig
      have hpos : 0 < (dequeAppend30 (runFps ts).times t).getLastD 0 -
          (dequeAppend30 (runFps ts).times t).headD 0 := by
        have := headD_lt_getLastD_of_pairwise _ hpw hbig
        linarith
      rw [hfps, htimes]
      unfold fpsRateAfter
      rw [if_pos hbig, if_pos hpos]

/-! ## Session loops (handle_client)

A session loop repeatedly snapshots the shared state under the lock.
One Obs is one such snapshot (frame_id, latest_frame, timestamp, fps,
connected copied inside the critical section).  Frame ids are modelled
as Int because handle_client initialises last_frame_id to -1. -/

structure Obs where
  frame : Option (List ℕ)
  frameId : ℤ
  timestamp : ℚ
  fps : ℚ
  connected : Bool

inductive SessionMsg
  | status
  | frame (id : ℤ)
  deriving DecidableEq, Repr

/-- Frame ids sent by the v1 session loop (go2_video_bridge.py lines
146-173): a frame message is sent exactly when the snapshot's id is
strictly greater than last_frame_id and the slot is non-empty, and
last_frame_id is then set to the snapshot's id. -/
def sentIdsV1 : ℤ → List Obs → List ℤ
  | _, [] => []
  | last, o :: rest =>
    if last < o.frameId ∧ o.frame.isSome then o.frameId :: sentIdsV1 o.frameId rest
    else sentIdsV1 last rest

/-- Frame ids sent by the v2/v3 session loops (v2 lines 224-251, v3
lines 227-259): a frame is sent when the slot is non-empty and the
snapshot's id differs from last_frame_id. -/
def sentIdsPoll : ℤ → List Obs → List ℤ
  | _, [] => []
  | last, o :: rest =>
    if o.frame.isSome ∧ o.frameId ≠ last then o.frameId :: sentIdsPoll o.frameId rest
    else sentIdsPoll last rest

/-- All messages the v1 session loop writes to its transport: the
initial status message (go2_video_bridge.py lines 139-143) and then one
frame message per sent id. -/
def handleClientMsgsV1 (obs : List Obs) : List SessionMsg :=
  SessionMsg.status :: (sentIdsV1 (-1) obs).map SessionMsg.frame

/-- All messages the v2 session loop writes to its transport
(go2_video_bridge_v2.py lines 213-258): only frame messages, no
initial status message is sent on session creation.  The v3 loop
(lines 216-266) has the same shape. -/
def handleClientMsgsV2 (obs : List Obs) : List SessionMsg :=
  (sentIdsPoll (-1) obs).map SessionMsg.frame

/-! ### Session ordering lemmas -/

theorem sentIdsV1_pairwise (last : ℤ) (obs : List Obs) :
    List.Pairwise (· < ·) (sentIdsV1 last obs) ∧
    ∀ x ∈ sentIdsV1 last obs, last < x := by
  induction obs generalizing last with
  | nil => simp [sentIdsV1]
  | cons o rest ih =>
    by_cases h : last < o.frameId ∧ o.frame.isSome
    · have ih' := ih o.frameId
      refine ⟨?_, ?_⟩
      · rw [sentIdsV1, if_pos h]
        exact List.pairwise_cons.2 ⟨ih'.2, ih'.1⟩
      · intro x hx
        rw [sentIdsV1, if_pos h] at hx
        rcases List.mem_cons.1 hx with hx | hx
        · exact hx ▸ h.1
        · exact lt_trans h.1 (ih'.2 x hx)
    · rw [sentIdsV1, if_neg h]
      exact ih last

theorem sentIdsPoll_pairwise_of_lb (last : ℤ) (obs : List Obs)
    (hmono : List.Pairwise (· ≤ ·) (obs.map Obs.frameId))
    (hlb : ∀ o ∈ obs, last ≤ o.frameId) :
    List.Pairwise (· < ·) (sentIdsPoll last obs) ∧
    ∀ x ∈ sentIdsPoll last obs, last < x := by
  induction obs generalizing last with
  | nil => simp [sentIdsPoll]
  | cons o rest ih =>
    have hm : (∀ o2 ∈ rest, o.frameId ≤ o2.frameId) ∧
        List.Pairwise (· ≤ ·) (rest.map Obs.frameId) := by
      simpa using hmono
    have hmono' := hm.2
    have hhead := hm.1
    by_cases h : o.frame.isSome ∧ o.frameId ≠ last
    · have ih' := ih o.frameId hmono' hhead
      have hlast : last < o.frameId :=
        lt_of_le_of_ne (hlb o (List.mem_cons_self o rest)) (Ne.symm h.2)
      refine ⟨?_, ?_⟩
      · rw [sentIdsPoll, if_pos h]
        exact List.pairwise_cons.2 ⟨ih'.2, ih'.1⟩
      · intro x hx
        rw [sentIdsPoll, if_pos h] at hx
        rcases List.mem_cons.1 hx with hx | hx
        · exact hx ▸ hlast
        · exact lt_trans hlast (ih'.2 x hx)
    · rw [sentIdsPoll, if_neg h]
      exact ih last hmono'
        (fun o2 ho2 => le_trans (hlb o (List.mem_cons_self o rest)) (hhead o2 ho2))

theorem sentIdsPoll_pairwise (last : ℤ) (obs : List Obs)
    (hmono : List.Pairwise (· ≤ ·) (obs.map Obs.frameId)) :
    List.Pairwise (· < ·) (sentIdsPoll last obs) := by
  induction obs generalizing last with
  | nil => simp [sentIdsPoll]
  | cons o rest ih =>
    have hm : (∀ o2 ∈ rest, o.frameId ≤ o2.frameId) ∧
        List.Pairwise (· ≤ ·) (rest.map Obs.frameId) := by
      simpa using hmono
    have hmono' := hm.2
    have hhead := hm.1
    by_cases h : o.frame.isSome ∧ o.frameId ≠ last
    · have h2 := sentIdsPoll_pairwise_of_lb o.frameId rest hmono' hhead
      rw [sentIdsPoll, if_pos h]
      exact List.pairwise_cons.2 ⟨h2.2, h2.1⟩
    · rw [sentIdsPoll, if_neg h]
      exact ih last hmono'

/-! ## Lock discipline of the serving-domain loops

Each loop-body branch is written down as the sequence of relevant
atomic actions it performs, in program order: acquiring/releasing
video_state.lock, awaiting a sleep, awaiting a network send, or plain
computation.  A with-block that contains an await is recorded with the
await between acquire and release. -/

inductive Act
  | lockAcquire
  | lockRelease
  | sleep
  | sendMsg
  | compute
  deriving DecidableEq, Repr

/-- Number of suspension points (sleeps or sends) executed while the
lock is held, given the current hold depth. -/
def suspUnderLockAux : ℕ → List Act → ℕ
  | _, [] => 0
  | d, Act.lockAcquire :: r => suspUnderLockAux (d + 1) r
  | d, Act.lockRelease :: r => suspUnderLockAux (d - 1) r
  | d, Act.sleep :: r => (if 0 < d then 1 else 0) + suspUnderLockAux d r
  | d, Act.sendMsg :: r => (if 0 < d then 1 else 0) + suspUnderLockAux d r
  | d, Act.compute :: r => suspUnderLockAux d r

def suspUnderLock (l : List Act) : ℕ := suspUnderLockAux 0 l

/-- Number of network sends executed while the lock is held. -/
def sendsUnderLockAux : ℕ → List Act → ℕ
  | _, [] => 0
  | d, Act.lockAcquire :: r => sendsUnderLockAux (d + 1) r
  | d, Act.lockRelease :: r => sendsUnderLockAux (d - 1) r
  | d, Act.sleep :: r => sendsUnderLockAux d r
  | d, Act.sendMsg :: r => (if 0 < d then 1 else 0) + sendsUnderLockAux d r
  | d, Act.compute :: r => sendsUnderLockAux d r

def sendsUnderLock (l : List Act) : ℕ := sendsUnderLockAux 0 l

/-- v1 handle_client, iteration with a new frame (lines 148-173): copy
under the lock, release, send, sleep 0.033. -/
def sessionBodyV1NewFrame : List Act :=
  [Act.lockAcquire, Act.compute, Act.lockRelease, Act.sendMsg, Act.sleep]

/-- v1 handle_client, iteration without a new frame: copy under the
lock, release, sleep. -/
def sessionBodyV1NoNew : List Act :=
  [Act.lockAcquire, Act.compute, Act.lockRelease, Act.sleep]

/-- v2 handle_client, iteration without a new frame (lines 226-229):
the await asyncio.sleep(0.01) sits INSIDE the with video_state.lock
block; the continue then releases the lock. -/
def sessionBodyV2NoNew : List Act :=
  [Act.lockAcquire, Act.compute, Act.sleep, Act.lockRelease]

/-- v2 handle_client, iteration with a new frame (lines 226-251): copy
under the lock, release at the end of the with block, then send and
sleep 0.016. -/
def sessionBodyV2NewFrame : List Act :=
  [Act.lockAcquire, Act.compute, Act.lockRelease, Act.sendMsg, Act.sleep]

/-- v3 handle_client, iteration without a new frame (lines 229-237):
await asyncio.sleep(0.005) inside the with block, as in v2. -/
def sessionBodyV3NoNew : List Act :=
  [Act.lockAcquire, Act.compute, Act.sleep, Act.lockRelease]

/-- v3 handle_client, iteration with a new frame (lines 229-259). -/
def sessionBodyV3NewFrame : List Act :=
  [Act.lockAcquire, Act.compute, Act.lockRelease, Act.sendMsg, Act.sleep]

/-- v4 handle_client, iteration without a new frame (lines 169-177):
the lock block only copies; the sleep is outside. -/
def sessionBodyV4NoNew : List Act :=
  [Act.lockAcquire, Act.compute, Act.lockRelease, Act.sleep]

/-- v4 handle_client, iteration with a new frame (lines 169-192). -/
def sessionBodyV4NewFrame : List Act :=
  [Act.lockAcquire, Act.compute, Act.lockRelease, Act.sendMsg, Act.sleep]

/-- v1 broadcast_status body (lines 183-195): reads the state without
taking the lock, broadcasts, sleeps 1 s. -/
def broadcastBodyV1 : List Act := [Act.compute, Act.sendMsg, Act.sleep]

/-- v2 broadcast_status body (lines 262-283): sleeps 1 s, reads the
state without the lock, sends to each client. -/
def broadcastBodyV2 : List Act := [Act.sleep, Act.compute, Act.sendMsg]

/-! ## Status broadcaster delivery (v2 broadcast_status)

go2_video_bridge_v2.py lines 260-283: every tick with a non-empty
registry composes one status message and then sends it to each client
of a snapshot list(connected_clients); each send sits in its own
try/except whose failure is swallowed, so the iteration continues with
the remaining clients regardless. -/

structure ClientConn where
  cid : ℕ
  sendOk : Bool

structure StatusMsg where
  connected : Bool
  fps : ℚ
  width : ℤ
  height : ℤ
  clients : ℕ

/-- Python round-half-to-even of x to an integer. -/
def rneBelow (x : ℚ) : ℤ :=
  if 1/2 < x - ⌊x⌋ then ⌊x⌋ + 1
  else if x - ⌊x⌋ < 1/2 then ⌊x⌋
  else if ⌊x⌋ % 2 = 0 then ⌊x⌋ else ⌊x⌋ + 1

/-- Python round(x, 1): fps is rounded to one decimal place for the
status messages. -/
def pyRound1 (x : ℚ) : ℚ := (rneBelow (x * 10) : ℚ) / 10

def composeStatusV2 (st : VideoStateV2) (nclients : ℕ) : StatusMsg :=
  ⟨st.connected, pyRound1 st.fps, st.width, st.height, nclients⟩

/-- The per-client send loop: each client is paired with the message it
received, or none when its transport failed the send. -/
def broadcastSendLoop (msg : StatusMsg) : List ClientConn → List (ℕ × Option StatusMsg)
  | [] => []
  | c :: rest =>
    (c.cid, if c.sendOk then some msg else none) :: broadcastSendLoop msg rest

/-- One broadcast_status tick: skipped when the registry is empty,
otherwise the composed status message is dispatched to every client of
the snapshot. -/
def broadcastTickV2 (st : VideoStateV2) (clients : List ClientConn) :
    List (ℕ × Option StatusMsg) :=
  if clients.isEmpty then []
  else broadcastSendLoop (composeStatusV2 st clients.length) clients

theorem broadcastSendLoop_spec (msg : StatusMsg) (clients : List ClientConn) :
    (broadcastSendLoop msg clients).map Prod.fst = clients.map ClientConn.cid ∧
    ∀ c ∈ clients, c.sendOk = true → (c.cid, some msg) ∈ broadcastSendLoop msg clients := by
  induction clients with
  | nil => simp [broadcastSendLoop]
  | cons c rest ih =>
    refine ⟨by simp [broadcastSendLoop, ih.1], ?_⟩
    intro c2 hc2 hok
    rcases List.mem_cons.1 hc2 with hc2 | hc2
    · subst hc2
      simp [broadcastSendLoop, hok]
    · exact List.mem_cons_of_mem _ (ih.2 c2 hc2 hok)

/-! ## Process startup (main of each variant)

What each main does between the video-source start attempt and the
serving loop.  v2/v3/v4 call sys.exit(1) when receiver.start() returns
False (v2 lines 320-324, v3 lines 300-302, v4 lines 249-252).  v1
instead starts the capture thread, waits up to five seconds for
connectivity, prints a warning if the video is still not connected and
starts the WebSocket server regardless (lines 235-255), so its outcome
does not depend on whether the capture pipeline opened. -/

inductive MainOutcome
  | serving
  | exited (code : ℕ)
  deriving DecidableEq, Repr

def mainV1 (_captureOpenOk : Bool) : MainOutcome := MainOutcome.serving

def mainV2 (startOk : Bool) : MainOutcome :=
  if startOk then MainOutcome.serving else MainOutcome.exited 1

def mainV3 (startOk : Bool) : MainOutcome :=
  if startOk then MainOutcome.serving else MainOutcome.exited 1

def mainV4 (startOk : Bool) : MainOutcome :=
  if startOk then MainOutcome.serving else MainOutcome.exited 1

/-! ## Binary wire codec

v3 (lines 246-253) and v4 (lines 181-189) build each frame message as

  header = struct.pack('<I d f', frame_id, timestamp, fps)
  message = header + frame_data

The header is 4 bytes of unsigned 32-bit little-endian, 8 bytes of
IEEE-754 binary64 little-endian and 4 bytes of IEEE-754 binary32
little-endian, and struct raises struct.error when frame_id is negative
or at least 2^32.  IEEE-754 round-to-nearest-even is modelled over the
rationals with fuel-based helpers so that concrete instances evaluate
inside the kernel. -/

def u32LEbytes (n : ℕ) : List ℕ :=
  [n % 256, n / 2 ^ 8 % 256, n / 2 ^ 16 % 256, n / 2 ^ 24 % 256]

def u64LEbytes (n : ℕ) : List ℕ :=
  [n % 256, n / 2 ^ 8 % 256, n / 2 ^ 16 % 256, n / 2 ^ 24 % 256,
   n / 2 ^ 32 % 256, n / 2 ^ 40 % 256, n / 2 ^ 48 % 256, n / 2 ^ 56 % 256]

def leBytesToNat : List ℕ → ℕ
  | [] => 0
  | b :: r => b + 256 * leBytesToNat r

/-- Floor of the base-2 logarithm, by fuel so the kernel can evaluate
it on concrete inputs. -/
def log2fuel : ℕ → ℕ → ℕ
  | 0, _ => 0
  | fuel + 1, n => if 2 ≤ n then log2fuel fuel (n / 2) + 1 else 0

def natLog2 (n : ℕ) : ℕ := log2fuel n n

/-- Greatest e with 2^e ≤ n/d, for positive n and d: the candidate
natLog2 n - natLog2 d overshoots by at most one, which one cross
multiplication detects. -/
def bexp (n d : ℕ) : ℤ :=
  if natLog2 d ≤ natLog2 n then
    if d * 2 ^ (natLog2 n - natLog2 d) ≤ n then (natLog2 n : ℤ) - natLog2 d
    else (natLog2 n : ℤ) - natLog2 d - 1
  else
    if d ≤ n * 2 ^ (natLog2 d - natLog2 n) then (natLog2 n : ℤ) - natLog2 d
    else (natLog2 n : ℤ) - natLog2 d - 1

/-- Round n/d to the nearest integer, ties to even. -/
def rneDiv (n d : ℕ) : ℕ :=
  if d < 2 * (n % d) then n / d + 1
  else if 2 * (n % d) < d then n / d
  else if n / d % 2 = 0 then n / d else n / d + 1

/-- Round (n/d) * 2^k to the nearest integer, ties to even. -/
def rneScaled (n d : ℕ) (k : ℤ) : ℕ :=
  if 0 ≤ k then rneDiv (n * 2 ^ k.toNat) d else rneDiv n (d * 2 ^ (-k).toNat)

/-- Bit pattern (sign bit excluded) of the binary64 nearest to the
positive rational n/d: overflow gives the infinity pattern, exponents
below -1022 take the subnormal path, and a mantissa that rounds up to
2^53 carries into the next binade. -/
def roundPosF64 (n d : ℕ) : ℕ :=
  if 1023 < bexp n d then 2047 * 2 ^ 52
  else if bexp n d < -1022 then rneDiv (n * 2 ^ 1074) d
  else
    let e := bexp n d
    let m := rneScaled n d (52 - e)
    if m = 2 ^ 53 then
      if e = 1023 then 2047 * 2 ^ 52 else (e + 1 + 1023).toNat * 2 ^ 52
    else (e + 1023).toNat * 2 ^ 52 + (m - 2 ^ 52)

def roundF64 (q : ℚ) : ℕ :=
  if q = 0 then 0
  else if 0 < q then roundPosF64 q.num.toNat q.den
  else 2 ^ 63 + roundPosF64 (-q).num.toNat (-q).den

def roundPosF32 (n d : ℕ) : ℕ :=
  if 127 < bexp n d then 255 * 2 ^ 23
  else if bexp n d < -126 then rneDiv (n * 2 ^ 149) d
  else
    let e := bexp n d
    let m := rneScaled n d (23 - e)
    if m = 2 ^ 24 then
      if e = 127 then 255 * 2 ^ 23 else (e + 1 + 127).toNat * 2 ^ 23
    else (e + 127).toNat * 2 ^ 23 + (m - 2 ^ 23)

def roundF32 (q : ℚ) : ℕ :=
  if q = 0 then 0
  else if 0 < q then roundPosF32 q.num.toNat q.den
  else 2 ^ 31 + roundPosF32 (-q).num.toNat (-q).den

/-- Exact rational value of a binary64 bit pattern; none for NaN and
the infinities. -/
def f64val (bits : ℕ) : Option ℚ :=
  if bits / 2 ^ 52 % 2 ^ 11 = 2047 then none
  else
    let sign : ℚ := if bits / 2 ^ 63 % 2 = 1 then -1 else 1
    let ef : ℕ := bits / 2 ^ 52 % 2 ^ 11
    let fr : ℕ := bits % 2 ^ 52
    if ef = 0 then some (sign * (fr : ℚ) / 2 ^ 1074)
    else some (sign * ((2 ^ 52 + fr : ℕ) : ℚ) * 2 ^ ef / 2 ^ 1075)

/-- Exact rational value of a binary32 bit pattern; none for NaN and
the infinities. -/
def f32val (bits : ℕ) : Option ℚ :=
  if bits / 2 ^ 23 % 2 ^ 8 = 255 then none
  else
    let sign : ℚ := if bits / 2 ^ 31 % 2 = 1 then -1 else 1
    let ef : ℕ := bits / 2 ^ 23 % 2 ^ 8
    let fr : ℕ := bits % 2 ^ 23
    if ef = 0 then some (sign * (fr : ℚ) / 2 ^ 149)
    else some (sign * ((2 ^ 23 + fr : ℕ) : ℚ) * 2 ^ ef / 2 ^ 150)

/-- The 16-byte header struct.pack('<I d f', frame_id, timestamp, fps),
assuming frame_id already fits an unsigned 32-bit field. -/
def frameHeader (frame_id : ℤ) (timestamp fps : ℚ) : List ℕ :=
  u32LEbytes frame_id.toNat ++ u64LEbytes (roundF64 timestamp) ++
    u32LEbytes (roundF32 fps)

/-- Building one frame message: struct.pack raises struct.error (none)
when the id does not fit the unsigned 32-bit field; otherwise the
message is the header immediately followed by the payload bytes. -/
def packFrameMessage (frame_id : ℤ) (timestamp fps : ℚ) (payload : List ℕ) :
    Option (List ℕ) :=
  if 0 ≤ frame_id ∧ frame_id < 2 ^ 32 then
    some (frameHeader frame_id timestamp fps ++ payload)
  else none

/-- Reading a frame message back: the first 16 bytes are the three
little-endian header fields, everything after them is the payload. -/
def unpackFrameMessage (msg : List ℕ) : Option (ℕ × ℕ × ℕ × List ℕ) :=
  if 16 ≤ msg.length then
    some (leBytesToNat (msg.take 4), leBytesToNat ((msg.drop 4).take 8),
          leBytesToNat ((msg.drop 12).take 4), msg.drop 16)
  else none

theorem leBytesToNat_u32 (n : ℕ) : leBytesToNat (u32LEbytes n) = n % 2 ^ 32 := by
  simp only [u32LEbytes, leBytesToNat]
  omega

theorem leBytesToNat_u64 (n : ℕ) : leBytesToNat (u64LEbytes n) = n % 2 ^ 64 := by
  simp only [u64LEbytes, leBytesToNat]
  omega

/-! ## Claim theorems -/

/-- C1: in every run of the producer adapter (v1 video_capture_thread
and v2 on_new_sample), the frame id is 1 for the first successfully
produced frame and exactly previous + 1 for each later one, so the
slot's version is strictly increasing across productions and
non-decreasing over the slot's lifetime. -/
theorem producer_ids_start_one_step_one (l1 : List SampleV1) (l2 : List SampleV2) :
    producedIdsV1 initVideoStateV1 l1 =
      List.range' 1 (l1.countP (fun smp => smp.encoded.isSome)) ∧
    List.Pairwise (· < ·) (producedIdsV1 initVideoStateV1 l1) ∧
    List.Chain' (· ≤ ·)
      (initVideoStateV1.frame_id :: versionTraceV1 initVideoStateV1 l1) ∧
    producedIdsV2 initVideoStateV2 l2 =
      List.range' 1 (l2.countP (fun smp => smp.encoded.isSome)) ∧
    List.Pairwise (· < ·) (producedIdsV2 initVideoStateV2 l2) ∧
    List.Chain' (· ≤ ·)
      (initVideoStateV2.frame_id :: versionTraceV2 initVideoStateV2 l2) := by
  refine ⟨?_, ?_, versionTraceV1_chain _ _, ?_, ?_, versionTraceV2_chain _ _⟩
  · simpa using producedIdsV1_eq_range initVideoStateV1 l1
  · rw [producedIdsV1_eq_range]
    exact List.pairwise_lt_range' _ _
  · simpa using producedIdsV2_eq_range initVideoStateV2 l2
  · rw [producedIdsV2_eq_range]
    exact List.pairwise_lt_range' _ _

/-- C2: given non-decreasing snapshot versions, the frame ids a session
sends are pairwise strictly increasing, for the v1 session loop and for
the v2/v3 polling session loop alike (sessions may skip ids, but never
send an id at most one already sent). -/
theorem session_sent_ids_increasing (obs : List Obs)
    (hmono : List.Chain' (· ≤ ·) (obs.map Obs.frameId)) :
    List.Pairwise (· < ·) (sentIdsV1 (-1) obs) ∧
    List.Pairwise (· < ·) (sentIdsPoll (-1) obs) :=
  ⟨(sentIdsV1_pairwise (-1) obs).1,
   sentIdsPoll_pairwise (-1) obs (List.chain'_iff_pairwise.1 hmono)⟩

theorem session_sent_ids_increasing_witness :
    List.Chain' (· ≤ ·)
      (([⟨some [1], 1, 0, 0, true⟩, ⟨some [1], 1, 0, 0, true⟩,
         ⟨some [2], 3, 0, 0, true⟩] : List Obs).map Obs.frameId) ∧
    (List.Pairwise (· < ·)
      (sentIdsV1 (-1) [⟨some [1], 1, 0, 0, true⟩, ⟨some [1], 1, 0, 0, true⟩,
        ⟨some [2], 3, 0, 0, true⟩]) ∧
     List.Pairwise (· < ·)
      (sentIdsPoll (-1) [⟨some [1], 1, 0, 0, true⟩, ⟨some [1], 1, 0, 0, true⟩,
        ⟨some [2], 3, 0, 0, true⟩])) :=
  ⟨by simp [List.chain'_cons], session_sent_ids_increasing _ (by simp [List.chain'_cons])⟩

/-- C4: a sample whose encode fails leaves the whole shared state
unchanged (no id advance, no slot write, no FPS-window append) and the
capture loop continues with the remaining samples. -/
theorem encode_failure_drops_sample (s : VideoStateV1) (t : ℚ)
    (rest : List SampleV1) :
    video_capture_step s ⟨none, t⟩ = s ∧
    producedIdsV1 s (⟨none, t⟩ :: rest) = producedIdsV1 s rest ∧
    versionTraceV1 s (⟨none, t⟩ :: rest) = s.frame_id :: versionTraceV1 s rest := by
  refine ⟨rfl, ?_, ?_⟩ <;> simp [producedIdsV1, versionTraceV1, video_capture_step]

/-- C5: the FPS window keeps at most the last 30 timestamps
(drop-oldest), the rate equals (count - 1) / (newest - oldest) once the
window holds two timestamps and is 0 before that, and on the ten
timestamps 0.0, 0.1, ..., 0.9 the rate is exactly 10, within the 0.05
tolerance. -/
theorem fps_window_and_rate :
    (∀ ts : List ℚ, List.Pairwise (· < ·) ts →
      (runFps ts).times = ts.drop (ts.length - 30) ∧
      (runFps ts).times.length ≤ 30 ∧
      ((runFps ts).times.length < 2 → (runFps ts).fps = 0) ∧
      (2 ≤ (runFps ts).times.length →
        (runFps ts).fps = (((runFps ts).times.length : ℚ) - 1) /
          ((runFps ts).times.getLastD 0 - (runFps ts).times.headD 0))) ∧
    (runFps [0, 0.1, 0.2, 0.3, 0.4, 0.5, 0.6, 0.7, 0.8, 0.9]).fps = 10 ∧
    |(runFps [0, 0.1, 0.2, 0.3, 0.4, 0.5, 0.6, 0.7, 0.8, 0.9]).fps - 10| ≤
      0.05 := by
  have hgen : ∀ ts : List ℚ, List.Pairwise (· < ·) ts →
      (runFps ts).times = ts.drop (ts.length - 30) ∧
      (runFps ts).times.length ≤ 30 ∧
      ((runFps ts).times.length < 2 → (runFps ts).fps = 0) ∧
      (2 ≤ (runFps ts).times.length →
        (runFps ts).fps = (((runFps ts).times.length : ℚ) - 1) /
          ((runFps ts).times.getLastD 0 - (runFps ts).times.headD 0)) := by
    intro ts hts
    have hspec := runFps_fps_spec ts hts
    refine ⟨runFps_times_eq ts, ?_, hspec.1, hspec.2⟩
    rw [runFps_times_eq, List.length_drop]
    omega
  have hsorted : List.Pairwise (· < ·)
      ([0, 0.1, 0.2, 0.3, 0.4, 0.5, 0.6, 0.7, 0.8, 0.9] : List ℚ) := by
    norm_num [List.pairwise_cons]
  have h := hgen _ hsorted
  have htimes : (runFps [0, 0.1, 0.2, 0.3, 0.4, 0.5, 0.6, 0.7, 0.8, 0.9]).times =
      ([0, 0.1, 0.2, 0.3, 0.4, 0.5, 0.6, 0.7, 0.8, 0.9] : List ℚ) := by
    simpa using h.1
  have hlen : (runFps [0, 0.1, 0.2, 0.3, 0.4, 0.5, 0.6, 0.7, 0.8, 0.9]).times.length = 10 := by
    rw [htimes]; rfl
  have hrate := h.2.2.2 (by omega)
  rw [htimes] at hrate
  have hfps : (runFps [0, 0.1, 0.2, 0.3, 0.4, 0.5, 0.6, 0.7, 0.8, 0.9]).fps = 10 := by
    rw [hrate]
    norm_num [List.getLastD_eq_getLast?, List.getLast?_cons_cons]
  refine ⟨hgen, hfps, ?_⟩
  rw [hfps]
  norm_num

theorem fps_window_and_rate_witness :
    List.Pairwise (· < ·) ([0, 1, 2] : List ℚ) ∧
    ((runFps [0, 1, 2]).times = ([0, 1, 2] : List ℚ).drop (([0, 1, 2] : List ℚ).length - 30) ∧
     (runFps [0, 1, 2]).times.length ≤ 30 ∧
     ((runFps [0, 1, 2]).times.length < 2 → (runFps [0, 1, 2]).fps = 0) ∧
     (2 ≤ (runFps [0, 1, 2]).times.length →
       (runFps [0, 1, 2]).fps = (((runFps [0, 1, 2]).times.length : ℚ) - 1) /
         ((runFps [0, 1, 2]).times.getLastD 0 - (runFps [0, 1, 2]).times.headD 0))) :=
  ⟨by simp, fps_window_and_rate.1 [0, 1, 2] (by simp)⟩

/-- C6 counterexample: in v1 (go2_video_bridge.py), a video source that
cannot be started does not make the process exit; after the five-second
wait and a warning, the WebSocket server is started anyway, so the
claim that the process exits with non-zero status before serving fails
on this variant. -/
theorem mainV1_serves_despite_failed_capture :
    mainV1 false = MainOutcome.serving ∧
    MainOutcome.serving ≠ MainOutcome.exited 1 := by
  exact ⟨rfl, by decide⟩

/-- C6 amended: in v2, v3 and v4 an initialization failure of the
video source makes the process exit with status 1 before the serving
loop, while a successful start leads to serving; v1 starts serving
regardless of the capture state. -/
theorem init_failure_exit_codes :
    mainV2 false = MainOutcome.exited 1 ∧
    mainV3 false = MainOutcome.exited 1 ∧
    mainV4 false = MainOutcome.exited 1 ∧
    mainV2 true = MainOutcome.serving ∧
    mainV3 true = MainOutcome.serving ∧
    mainV4 true = MainOutcome.serving ∧
    mainV1 false = MainOutcome.serving := by
  decide

/-- C7 counterexample: a v2 session whose first snapshot already holds
a frame sends a frame message first; no status message is sent on
session creation, so the claim that the first message on every session
is a status message fails on v2 (and v3, which shares the loop). -/
theorem v2_first_message_is_frame :
    handleClientMsgsV2 [⟨some [255], 1, 0, 0, true⟩] = [SessionMsg.frame 1] ∧
    SessionMsg.frame 1 ≠ SessionMsg.status := by
  decide

/-- C7 amended: only the v1 session loop sends an initial status
message upon session creation before any frame message; the first
message a v1 session writes is always the status message. -/
theorem v1_first_message_is_status (obs : List Obs) :
    (handleClientMsgsV1 obs).head? = some SessionMsg.status := rfl

/-- C8: evaluation of the lock discipline on every loop-body branch:
the v2 and v3 session loops await a sleep while holding
video_state.lock in their no-new-frame branch (one suspension under the
lock), every other branch suspends only outside the critical section,
and no branch of any variant performs a network send under the lock. -/
theorem lock_discipline_eval :
    suspUnderLock sessionBodyV2NoNew = 1 ∧
    suspUnderLock sessionBodyV3NoNew = 1 ∧
    suspUnderLock sessionBodyV1NewFrame = 0 ∧
    suspUnderLock sessionBodyV1NoNew = 0 ∧
    suspUnderLock sessionBodyV2NewFrame = 0 ∧
    suspUnderLock sessionBodyV3NewFrame = 0 ∧
    suspUnderLock sessionBodyV4NoNew = 0 ∧
    suspUnderLock sessionBodyV4NewFrame = 0 ∧
    suspUnderLock broadcastBodyV1 = 0 ∧
    suspUnderLock broadcastBodyV2 = 0 ∧
    sendsUnderLock sessionBodyV1NewFrame = 0 ∧
    sendsUnderLock sessionBodyV2NewFrame = 0 ∧
    sendsUnderLock sessionBodyV2NoNew = 0 ∧
    sendsUnderLock sessionBodyV3NewFrame = 0 ∧
    sendsUnderLock sessionBodyV3NoNew = 0 ∧
    sendsUnderLock sessionBodyV4NewFrame = 0 ∧
    sendsUnderLock broadcastBodyV1 = 0 ∧
    sendsUnderLock broadcastBodyV2 = 0 := by
  decide

/-- C9: every broadcast_status tick with a non-empty registry sends the
status message composed from the shared state and the client count to
every registered session, and a failing transport on one session does
not prevent delivery to any other session. -/
theorem broadcast_tick_fanout (st : VideoStateV2) (clients : List ClientConn)
    (hne : clients ≠ []) :
    (broadcastTickV2 st clients).map Prod.fst = clients.map ClientConn.cid ∧
    ∀ c ∈ clients, c.sendOk = true →
      (c.cid, some (composeStatusV2 st clients.length)) ∈ broadcastTickV2 st clients := by
  have hisEmpty : clients.isEmpty = false := by
    simpa [List.isEmpty_iff] using hne
  have hspec := broadcastSendLoop_spec (composeStatusV2 st clients.length) clients
  unfold broadcastTickV2
  rw [hisEmpty]
  simpa using hspec

theorem broadcast_tick_fanout_witness :
    (([⟨1, true⟩, ⟨2, false⟩, ⟨3, true⟩] : List ClientConn) ≠ []) ∧
    ((broadcastTickV2 initVideoStateV2 [⟨1, true⟩, ⟨2, false⟩, ⟨3, true⟩]).map Prod.fst =
        ([⟨1, true⟩, ⟨2, false⟩, ⟨3, true⟩] : List ClientConn).map ClientConn.cid ∧
     ∀ c ∈ ([⟨1, true⟩, ⟨2, false⟩, ⟨3, true⟩] : List ClientConn), c.sendOk = true →
       (c.cid, some (composeStatusV2 initVideoStateV2
          ([⟨1, true⟩, ⟨2, false⟩, ⟨3, true⟩] : List ClientConn).length)) ∈
         broadcastTickV2 initVideoStateV2 [⟨1, true⟩, ⟨2, false⟩, ⟨3, true⟩]) :=
  ⟨by simp, broadcast_tick_fanout initVideoStateV2 _ (by simp)⟩

theorem unpack_split (A B C pl : List ℕ) (hA : A.length = 4)
    (hB : B.length = 8) (hC : C.length = 4) :
    unpackFrameMessage (A ++ B ++ C ++ pl) =
      some (leBytesToNat A, leBytesToNat B, leBytesToNat C, pl) := by
  have hassoc1 : A ++ B ++ C ++ pl = A ++ (B ++ (C ++ pl)) := by
    simp [List.append_assoc]
  have hassoc2 : A ++ B ++ C ++ pl = (A ++ B) ++ (C ++ pl) := by
    simp [List.append_assoc]
  have hassoc3 : A ++ B ++ C ++ pl = (A ++ B ++ C) ++ pl := by
    simp [List.append_assoc]
  have hlen : 16 ≤ (A ++ B ++ C ++ pl).length := by
    simp only [List.length_append, hA, hB, hC]
    omega
  unfold unpackFrameMessage
  rw [if_pos hlen]
  have h1 : (A ++ B ++ C ++ pl).take 4 = A := by
    rw [hassoc1]; exact List.take_left' hA
  have h2 : ((A ++ B ++ C ++ pl).drop 4).take 8 = B := by
    rw [hassoc1, List.drop_left' hA]
    rw [show B ++ (C ++ pl) = B ++ (C ++ pl) from rfl]
    exact List.take_left' hB
  have h3 : ((A ++ B ++ C ++ pl).drop 12).take 4 = C := by
    rw [hassoc2, List.drop_left' (by simp [hA, hB])]
    exact List.take_left' hC
  have h4 : (A ++ B ++ C ++ pl).drop 16 = pl := by
    rw [hassoc3]
    exact List.drop_left' (by simp [hA, hB, hC])
  rw [h1, h2, h3, h4]

/-- C3: a frame message is the fixed 16-byte header of struct.pack
with format string I d f in little-endian mode (unsigned 32-bit frame
id, binary64 timestamp, binary32 fps) immediately followed by the
payload bytes with no delimiter, and the concrete header for frame_id
42, timestamp 1700000000.5, fps 29.7 decodes back to the identical
integer, the identical double, and a binary32 value equal to 29.7
within single-precision rounding. -/
theorem frame_message_layout_and_roundtrip :
    (∀ (id : ℤ) (ts fps : ℚ) (pl : List ℕ), 0 ≤ id → id < 2 ^ 32 →
      packFrameMessage id ts fps pl = some (frameHeader id ts fps ++ pl) ∧
      (frameHeader id ts fps).length = 16 ∧
      unpackFrameMessage (frameHeader id ts fps ++ pl) =
        some (id.toNat, roundF64 ts % 2 ^ 64, roundF32 fps % 2 ^ 32, pl)) ∧
    roundF64 1700000000.5 = 4744917124795858944 ∧
    roundF32 29.7 = 1106090394 ∧
    f64val 4744917124795858944 = some 1700000000.5 ∧
    f32val 1106090394 = some (15571354 / 524288 : ℚ) ∧
    |(15571354 / 524288 : ℚ) - 29.7| ≤ 1 / 2 ^ 20 := by
  have hts : (1700000000.5 : ℚ) = (⟨3400000001, 2, by norm_num, by norm_num⟩ : ℚ) := by
    rw [show (⟨3400000001, 2, by norm_num, by norm_num⟩ : ℚ) =
        Rat.divInt 3400000001 2 from Rat.mk'_eq_divInt]
    rw [Rat.divInt_eq_div]
    norm_num
  have hfps : (29.7 : ℚ) = (⟨297, 10, by norm_num, by norm_num⟩ : ℚ) := by
    rw [show (⟨297, 10, by norm_num, by norm_num⟩ : ℚ) =
        Rat.divInt 297 10 from Rat.mk'_eq_divInt]
    rw [Rat.divInt_eq_div]
    norm_num
  refine ⟨?_, ?_, ?_, ?_, ?_, ?_⟩
  · intro id ts fps pl h0 h1
    refine ⟨?_, by simp [frameHeader, u32LEbytes, u64LEbytes], ?_⟩
    · unfold packFrameMessage
      rw [if_pos ⟨h0, h1⟩]
    · have hu := unpack_split (u32LEbytes id.toNat) (u64LEbytes (roundF64 ts))
        (u32LEbytes (roundF32 fps)) pl rfl rfl rfl
      unfold frameHeader
      rw [hu, leBytesToNat_u32, leBytesToNat_u64, leBytesToNat_u32]
      rw [Nat.mod_eq_of_lt (show id.toNat < 2 ^ 32 by omega)]
  · rw [hts]; decide
  · rw [hfps]; decide
  · rw [hts]
    rw [show (⟨3400000001, 2, by norm_num, by norm_num⟩ : ℚ) =
        Rat.divInt 3400000001 2 from Rat.mk'_eq_divInt]
    rw [Rat.divInt_eq_div]
    norm_num [f64val]
  · norm_num [f32val]
  · rw [abs_sub_le_iff]
    constructor <;> norm_num

theorem frame_message_layout_witness :
    (0 : ℤ) ≤ 42 ∧ (42 : ℤ) < 2 ^ 32 ∧
    (packFrameMessage 42 1700000000.5 29.7 [255, 216] =
        some (frameHeader 42 1700000000.5 29.7 ++ [255, 216]) ∧
     (frameHeader 42 1700000000.5 29.7).length = 16 ∧
     unpackFrameMessage (frameHeader 42 1700000000.5 29.7 ++ [255, 216]) =
       some ((42 : ℤ).toNat, roundF64 1700000000.5 % 2 ^ 64,
             roundF32 29.7 % 2 ^ 32, [255, 216])) :=
  ⟨by decide, by decide,
   frame_message_layout_and_roundtrip.1 42 1700000000.5 29.7 [255, 216]
     (by decide) (by decide)⟩

/-- C10: building a binary frame message succeeds exactly when the
frame id fits the unsigned 32-bit header field; struct.pack raises for
every id that is negative or at least 2^32, although the id counter
itself is unbounded. -/
theorem frame_id_u32_bound (id : ℤ) (ts fps : ℚ) (pl : List ℕ) :
    (packFrameMessage id ts fps pl).isSome ↔ (0 ≤ id ∧ id < 2 ^ 32) := by
  by_cases h : 0 ≤ id ∧ id < 2 ^ 32 <;> simp [packFrameMessage, h]

end Go2Bridge
